import Mathlib

/-!
Formalisation of the contract-enforcement engine of `pl/interface.py`.

The engine's operations are shallowly embedded as executable Lean functions:

* `IConstraint` / `IConstraint.validate` — the constraint classes `_IValue`,
  `IList`, `IOption` and their `validate` methods (a `Bool` result models
  "raises no exception").
* `mkIFunction` — `_IFunction.__init__` together with `_IFunction._get_args`.
* `checkMethodIo` — the wrapper `new_f` produced by `_check_method_IO`.
* `establish_rules` — `_Interface._establish_rules` (rule registry updates).
* `apply_rules_to_method` — `_Interface._apply_rules_to_method` (binding a
  concrete class to its interface's rules).
* `interfaceSetattr` / `interfaceGetattr` — `BaseInterface.__setattr__` and
  `BaseInterface.__getattr__`.

Python dictionaries are modelled as association lists (`alookup` / `aset`),
Python runtime values by the universe `PyVal`, and exceptions by the result
types `Except` / `Option IfaceError`.
-/

/-- The runtime Python types relevant to the engine: the builtin types that
appear in the module's own examples plus user classes (`cls name`). -/
inductive PyType
  | int
  | str
  | noneType
  | list
  | cls (name : String)
deriving DecidableEq

/-- Python runtime values.  `vinst c i` is the `i`-th instance of user class
`c`; `vlist` is a Python list. -/
inductive PyVal
  | vint (n : Int)
  | vstr (s : String)
  | vnone
  | vlist (xs : List PyVal)
  | vinst (cname : String) (id : Nat)

mutual

/-- Decidable equality for `PyVal` (written by hand because of the nested
`List PyVal` occurrence). -/
def PyVal.decEq : (a b : PyVal) → Decidable (a = b)
  | .vint a, .vint b =>
      if h : a = b then .isTrue (by rw [h]) else .isFalse (fun hc => h (PyVal.vint.inj hc))
  | .vstr a, .vstr b =>
      if h : a = b then .isTrue (by rw [h]) else .isFalse (fun hc => h (PyVal.vstr.inj hc))
  | .vnone, .vnone => .isTrue rfl
  | .vlist xs, .vlist ys =>
      match PyVal.decEqList xs ys with
      | .isTrue h => .isTrue (by rw [h])
      | .isFalse h => .isFalse (fun hc => h (PyVal.vlist.inj hc))
  | .vinst c i, .vinst d j =>
      if h : c = d ∧ i = j then .isTrue (by rw [h.1, h.2])
      else .isFalse (fun hc => h ⟨(PyVal.vinst.inj hc).1, (PyVal.vinst.inj hc).2⟩)
  | .vint _, .vstr _ => .isFalse (fun hc => PyVal.noConfusion hc)
  | .vint _, .vnone => .isFalse (fun hc => PyVal.noConfusion hc)
  | .vint _, .vlist _ => .isFalse (fun hc => PyVal.noConfusion hc)
  | .vint _, .vinst _ _ => .isFalse (fun hc => PyVal.noConfusion hc)
  | .vstr _, .vint _ => .isFalse (fun hc => PyVal.noConfusion hc)
  | .vstr _, .vnone => .isFalse (fun hc => PyVal.noConfusion hc)
  | .vstr _, .vlist _ => .isFalse (fun hc => PyVal.noConfusion hc)
  | .vstr _, .vinst _ _ => .isFalse (fun hc => PyVal.noConfusion hc)
  | .vnone, .vint _ => .isFalse (fun hc => PyVal.noConfusion hc)
  | .vnone, .vstr _ => .isFalse (fun hc => PyVal.noConfusion hc)
  | .vnone, .vlist _ => .isFalse (fun hc => PyVal.noConfusion hc)
  | .vnone, .vinst _ _ => .isFalse (fun hc => PyVal.noConfusion hc)
  | .vlist _, .vint _ => .isFalse (fun hc => PyVal.noConfusion hc)
  | .vlist _, .vstr _ => .isFalse (fun hc => PyVal.noConfusion hc)
  | .vlist _, .vnone => .isFalse (fun hc => PyVal.noConfusion hc)
  | .vlist _, .vinst _ _ => .isFalse (fun hc => PyVal.noConfusion hc)
  | .vinst _ _, .vint _ => .isFalse (fun hc => PyVal.noConfusion hc)
  | .vinst _ _, .vstr _ => .isFalse (fun hc => PyVal.noConfusion hc)
  | .vinst _ _, .vnone => .isFalse (fun hc => PyVal.noConfusion hc)
  | .vinst _ _, .vlist _ => .isFalse (fun hc => PyVal.noConfusion hc)

/-- Decidable equality for lists of `PyVal`. -/
def PyVal.decEqList : (xs ys : List PyVal) → Decidable (xs = ys)
  | [], [] => .isTrue rfl
  | [], _ :: _ => .isFalse (fun hc => List.noConfusion hc)
  | _ :: _, [] => .isFalse (fun hc => List.noConfusion hc)
  | x :: xs, y :: ys =>
      match PyVal.decEq x y, PyVal.decEqList xs ys with
      | .isTrue h1, .isTrue h2 => .isTrue (by rw [h1, h2])
      | .isFalse h1, _ => .isFalse (fun hc => h1 (List.cons.inj hc).1)
      | _, .isFalse h2 => .isFalse (fun hc => h2 (List.cons.inj hc).2)

end

instance : DecidableEq PyVal := PyVal.decEq

/-- `type(v)` for a runtime value. -/
def PyVal.typeOf : PyVal → PyType
  | .vint _ => .int
  | .vstr _ => .str
  | .vnone => .noneType
  | .vlist _ => .list
  | .vinst c _ => .cls c

/-- Calling a type with no arguments, `T()`: `int() = 0`, `str() = ""`,
`list() = []`, `type(None)() = None`; for a user class we model the produced
default instance as instance `0` of that class.  Used by
`BaseInterface.__getattr__` to derive a default value
(`self.__dict__[name] = p[name].TYPE()`). -/
def PyType.defaultVal : PyType → PyVal
  | .int => .vint 0
  | .str => .vstr ""
  | .noneType => .vnone
  | .list => .vlist []
  | .cls c => .vinst c 0

/-- The three constraint classes of interface.py: `_IValue typ` (exact type),
`IList typ` (list of an exact element type) and `IOption options` (value must
be a member of the options). -/
inductive IConstraint
  | ival (t : PyType)
  | ilist (t : PyType)
  | iopt (options : List PyVal)
deriving DecidableEq

/-- The `validate` methods of `_IValue`, `IList` and `IOption`: `true` means
the call returns normally, `false` means it raises `InterfaceValueError`.

* `_IValue.validate` raises iff `type(input) != self.TYPE`;
* `IList.validate` raises iff `type(input) != list` or some element fails the
  element-type check;
* `IOption.validate` raises iff `input not in self.OPTIONS`. -/
def IConstraint.validate : IConstraint → PyVal → Bool
  | .ival t, v => decide (v.typeOf = t)
  | .ilist t, v =>
      match v with
      | .vlist xs => xs.all (fun e => decide (e.typeOf = t))
      | _ => false
  | .iopt options, v => decide (v ∈ options)

/-- Association-list lookup, modelling Python `dict.__getitem__`/`has_key`. -/
def alookup {α : Type} : List (String × α) → String → Option α
  | [], _ => none
  | (k', v) :: rest, k => if k' = k then some v else alookup rest k

/-- Association-list store, modelling Python `dict.__setitem__`: replace the
binding if the key is present, append it otherwise. -/
def aset {α : Type} : List (String × α) → String → α → List (String × α)
  | [], k, v => [(k, v)]
  | (k', v') :: rest, k, v =>
      if k' = k then (k, v) :: rest else (k', v') :: aset rest k v

theorem alookup_aset_self {α : Type} (l : List (String × α)) (k : String) (v : α) :
    alookup (aset l k v) k = some v := by
  induction l with
  | nil => simp [aset, alookup]
  | cons hd tl ih =>
      obtain ⟨k0, v0⟩ := hd
      by_cases h : k0 = k
      · simp [aset, alookup, h]
      · simp [aset, alookup, h, ih]

theorem alookup_aset_ne {α : Type} (l : List (String × α)) (k k' : String) (v : α)
    (h : k' ≠ k) : alookup (aset l k' v) k = alookup l k := by
  induction l with
  | nil => simp [aset, alookup, h]
  | cons hd tl ih =>
      obtain ⟨k0, v0⟩ := hd
      by_cases h2 : k0 = k'
      · subst h2
        simp [aset, alookup, h]
      · by_cases h3 : k0 = k
        · subst h3
          simp [aset, alookup, Ne.symm h]
        · simp [aset, alookup, h2, h3, ih]

/-- The engine's exceptions.  In the source every one of these is either
`InterfaceError` or `InterfaceValueError` (or one of the latter's two
subclasses), distinguished by its `required` message; we give each message
family its own constructor:

* `interfaceError` — `InterfaceError` (bad constraint literal in a method
  declaration);
* `valueError` — a plain `InterfaceValueError` raised by a `validate` method;
* `inputValueError` / `outputValueError` — `InterfaceInputValueError` and
  `InterfaceOutputValueError` raised by `_check_method_IO`;
* `readOnlyError` — `InterfaceValueError("... is read-only attribute")` from
  `__setattr__`;
* `notAvailableError` — `InterfaceValueError("attribute ... is not
  available")` from `__getattr__`;
* `missingMethodError k` — `InterfaceValueError("MISSING: k() is not
  defined.")` from `_apply_rules_to_method`;
* `signatureMismatchError k` — `InterfaceValueError("the valid args for k()
  should be ...")` from `_apply_rules_to_method`. -/
inductive IfaceError
  | interfaceError
  | valueError
  | inputValueError
  | outputValueError
  | readOnlyError
  | notAvailableError
  | missingMethodError (name : String)
  | signatureMismatchError (name : String)
deriving DecidableEq

/-- Classification of a literal appearing in an interface class body (either
as a parameter default of a declared method or as a property value): a bare
type, an `IList` instance, an `IOption` instance, or any other value. -/
inductive RuleLit
  | typ (t : PyType)
  | ilist (t : PyType)
  | iopt (options : List PyVal)
  | other (v : PyVal)
deriving DecidableEq

/-- A method declaration inside an interface class body, as seen through
`inspect.getargspec`: `args` are the parameter names with the receiver
already dropped (`getargspec(f).args[1:]`), `defaults` the declared default
values (`getargspec(f).defaults`), and `ret` the `__returns__` attribute
attached by the `returns` decorator, when present. -/
structure FuncDecl where
  args : List String
  defaults : List RuleLit
  ret : Option IConstraint
deriving DecidableEq

/-- The compiled rule of one interface method (`_IFunction`): the ordered
`IN` list of `(parameter name, constraint)` pairs and the `OUT` return
constraint. -/
structure IFunction where
  IN : List (String × IConstraint)
  OUT : IConstraint
deriving DecidableEq

/-- The conversion loop in `_IFunction.__init__`: a bare type default becomes
`_IValue`, an `IList`/`IOption` instance is kept, anything else raises
`InterfaceError`. -/
def convertArgPairs : List (String × RuleLit) → Except IfaceError (List (String × IConstraint))
  | [] => .ok []
  | (a, .typ t) :: rest =>
      match convertArgPairs rest with
      | .ok r => .ok ((a, .ival t) :: r)
      | .error e => .error e
  | (a, .ilist t) :: rest =>
      match convertArgPairs rest with
      | .ok r => .ok ((a, .ilist t) :: r)
      | .error e => .error e
  | (a, .iopt options) :: rest =>
      match convertArgPairs rest with
      | .ok r => .ok ((a, .iopt options) :: r)
      | .error e => .error e
  | (_, .other _) :: _ => .error .interfaceError

/-- `_IFunction.__init__`: `IN` is `zip(arg_names, arg_values)` (note the
source zips the full post-receiver name list against the defaults tuple from
the front, truncating at the shorter one) with each default converted by the
loop above; `OUT` is `obj.__returns__` when the decorator attached one and
`_IValue(type(None))` otherwise. -/
def mkIFunction (f : FuncDecl) : Except IfaceError IFunction :=
  match convertArgPairs (f.args.zip f.defaults) with
  | .ok inn => .ok ⟨inn, f.ret.getD (.ival .noneType)⟩
  | .error e => .error e

/-- The `returns` decorator: a bare type argument becomes `_IValue`, an
`IList`/`IOption` instance is attached as is, anything else raises
`InterfaceOutputValueError`. -/
def returnsDecor (rtype : RuleLit) (f : FuncDecl) : Except IfaceError FuncDecl :=
  match rtype with
  | .typ t => .ok { f with ret := some (.ival t) }
  | .ilist t => .ok { f with ret := some (.ilist t) }
  | .iopt options => .ok { f with ret := some (.iopt options) }
  | .other _ => .error .outputValueError

/-- The input-validation loop of `new_f` in `_check_method_IO`: walk the
`(constraint, argument)` pairs in order; the first constraint whose
`validate` raises is converted to `InterfaceInputValueError`. -/
def validateInputs : List (IConstraint × PyVal) → Option IfaceError
  | [] => none
  | (c, v) :: rest =>
      if c.validate v then validateInputs rest else some .inputValueError

/-- The wrapper `new_f` produced by `_check_method_IO`.  `σ` is the state a
method body can read and mutate (the instance together with the outside
world); `body s args kwargs` returns the post-state and the return value.
`args` models the positional arguments after the receiver (`args[1:]`),
`kwargs` the keyword arguments.  The wrapper zips the `IN` constraints
against the positional arguments only; on a validation failure it raises
`InterfaceInputValueError` without running the body (the state is returned
unchanged).  Otherwise the body runs on all arguments, and a return value
failing `OUT.validate` raises `InterfaceOutputValueError` — after the body's
state change already took place. -/
def checkMethodIo {σ : Type} (rule : IFunction)
    (body : σ → List PyVal → List (String × PyVal) → σ × PyVal)
    (s : σ) (args : List PyVal) (kwargs : List (String × PyVal)) :
    σ × Except IfaceError PyVal :=
  match validateInputs ((rule.IN.map Prod.snd).zip args) with
  | some e => (s, .error e)
  | none =>
      let r := body s args kwargs
      if rule.OUT.validate r.2 then (r.1, .ok r.2) else (r.1, .error .outputValueError)

theorem validateInputs_eq_none_iff (l : List (IConstraint × PyVal)) :
    validateInputs l = none ↔ ∀ p ∈ l, p.1.validate p.2 = true := by
  induction l with
  | nil => simp [validateInputs]
  | cons hd tl ih =>
      obtain ⟨c, v⟩ := hd
      by_cases h : c.validate v = true
      · simp [validateInputs, h, ih]
      · constructor
        · intro hc
          simp [validateInputs, h] at hc
        · intro hall
          exact absurd (hall (c, v) (List.mem_cons_self _ _)) h

theorem validateInputs_eq_some_of_failure (l : List (IConstraint × PyVal))
    (h : ∃ p ∈ l, p.1.validate p.2 = false) :
    validateInputs l = some .inputValueError := by
  induction l with
  | nil => simp at h
  | cons hd tl ih =>
      obtain ⟨c, v⟩ := hd
      by_cases hv : c.validate v = true
      · simp only [validateInputs, if_pos hv]
        apply ih
        obtain ⟨p, hp, hfail⟩ := h
        rcases List.mem_cons.mp hp with hp | hp
        · rw [hp] at hfail
          rw [hfail] at hv
          cases hv
        · exact ⟨p, hp, hfail⟩
      · simp [validateInputs, hv]

/-- A property rule as stored in `_IRule.p`: either one of the constraint
instances (`_IValue`/`IList`/`IOption`), or — for any other literal — the
literal itself, acting as a read-only fixed value. -/
inductive PRule
  | con (c : IConstraint)
  | fixed (v : PyVal)
deriving DecidableEq

/-- How `_establish_rules` stores a property literal:
`p[k] = _IValue(v) if type(v) == type else v`. -/
def toPRule : RuleLit → PRule
  | .typ t => .con (.ival t)
  | .ilist t => .con (.ilist t)
  | .iopt options => .con (.iopt options)
  | .other v => .fixed v

/-- `_IRule`: the per-interface rule set, with the method map `m` and the
property map `p`. -/
structure IRule where
  m : List (String × IFunction)
  p : List (String × PRule)
deriving DecidableEq

/-- An entry of an interface class body's namespace: a function declaration
or any other value. -/
inductive NsEntry
  | func (f : FuncDecl)
  | lit (v : RuleLit)
deriving DecidableEq

/-- `k.startswith('__')`. -/
def isDunder (k : String) : Bool := k.data.take 2 == ['_', '_']

/-- The registry `_Interface.rules`: interface name to rule set. -/
abbrev Registry := List (String × IRule)

/-- The body of the loop in `_establish_rules` over `namespace.items()`.
A key already present in the METHOD map is skipped (`continue`); otherwise a
function is compiled by `_IFunction` and stored in `m`, and any non-dunder
non-function value is stored in `p` (overwriting a previous binding).  An
exception raised by `_IFunction.__init__` aborts the loop; the mutations made
so far remain in place. -/
def establishLoop : IRule → List (String × NsEntry) → IRule × Option IfaceError
  | r, [] => (r, none)
  | r, (k, e) :: rest =>
      if (alookup r.m k).isSome then establishLoop r rest
      else
        match e with
        | .func fd =>
            match mkIFunction fd with
            | .ok fn => establishLoop ⟨aset r.m k fn, r.p⟩ rest
            | .error err => (r, some err)
        | .lit lv =>
            if isDunder k then establishLoop r rest
            else establishLoop ⟨r.m, aset r.p k (toPRule lv)⟩ rest

/-- `_Interface._establish_rules`: ensure a rule set exists under the
interface's name (a fresh empty one when absent, the existing one otherwise),
then run the namespace loop on it and store the result.  The returned
`Option IfaceError` is the exception propagated out, if any. -/
def establish_rules (registry : Registry) (clsName : String)
    (ns : List (String × NsEntry)) : Registry × Option IfaceError :=
  let r0 := (alookup registry clsName).getD ⟨[], []⟩
  let res := establishLoop r0 ns
  (aset registry clsName res.1, res.2)

/-- A concrete (implementing) method as seen through `inspect.getargspec`:
parameter names with the receiver dropped, plus its declared default values.
`_apply_rules_to_method` never reads the defaults. -/
structure CFunc where
  args : List String
  defaults : List PyVal
deriving DecidableEq

/-- An entry of a concrete class body's namespace. -/
inductive CEntry
  | func (f : CFunc)
  | nonfunc (v : PyVal)
deriving DecidableEq

/-- A method attribute of the finished concrete class: a plain function from
the class body (left untouched), the no-op `__init__` installed by the
binder, or a function wrapped by `_check_method_IO` with its bound rule. -/
inductive MethodAttr
  | plain (f : CFunc)
  | noopInit
  | wrapped (f : CFunc) (rule : IFunction)
deriving DecidableEq

/-- The function attributes of a class, name to attribute. -/
abbrev ClassTable := List (String × MethodAttr)

/-- The function attributes the concrete class starts with: every function of
its body, unwrapped (installed by `type.__new__` from the namespace). -/
def initialTable (ns : List (String × CEntry)) : ClassTable :=
  ns.foldl
    (fun t kv =>
      match kv.2 with
      | .func f => aset t kv.1 (.plain f)
      | .nonfunc _ => t) []

/-- The loop of `_apply_rules_to_method` over the rule set's method names:
a name absent from the concrete namespace raises the MISSING error; a
non-function entry is skipped; a function whose post-receiver parameter-name
list differs from the rule's `IN` names raises the signature error; otherwise
the function is wrapped by `_check_method_IO` with the rule attached. -/
def applyLoop (ns : List (String × CEntry)) :
    List (String × IFunction) → ClassTable → Except IfaceError ClassTable
  | [], t => .ok t
  | (k, fn) :: rest, t =>
      match alookup ns k with
      | none => .error (.missingMethodError k)
      | some (.nonfunc _) => applyLoop ns rest t
      | some (.func f) =>
          if fn.IN.map Prod.fst = f.args then
            applyLoop ns rest (aset t k (.wrapped f fn))
          else .error (.signatureMismatchError k)

/-- `_Interface._apply_rules_to_method`, run at concrete-class declaration
time against the bound interface rule set `rule` and the concrete class body
`ns`.  First, when the rule set has no `__init__` rule, a no-op `__init__` is
installed on the class with `setattr` — unconditionally, replacing a
constructor the concrete body supplied.  Then the method loop runs.  The
result is the class's final function-attribute table, or the declaration-time
exception. -/
def apply_rules_to_method (rule : IRule) (ns : List (String × CEntry)) :
    Except IfaceError ClassTable :=
  let t0 := initialTable ns
  let t1 :=
    if (alookup rule.m "__init__").isSome then t0
    else aset t0 "__init__" .noopInit
  applyLoop ns rule.m t1

/-- Replace the declared defaults of every function in a concrete class body
by `ds` (used to state that defaults play no role in the binder's checks). -/
def setDefaultsTo (ds : List PyVal) (ns : List (String × CEntry)) :
    List (String × CEntry) :=
  ns.map
    (fun kv =>
      match kv.2 with
      | .func f => (kv.1, .func ⟨f.args, ds⟩)
      | .nonfunc v => (kv.1, .nonfunc v))

/-- The instance `__dict__`. -/
abbrev PyDict := List (String × PyVal)

/-- `BaseInterface.__setattr__` for an instance whose class is bound to the
property rules `p`: a name with no rule is stored verbatim; a name ruled by a
constraint instance is validated (a failure raises) and then stored; any
other rule value means the property is a read-only fixed value and every set
attempt raises.  The returned dictionary is the instance `__dict__` after the
call; `some e` is a raised exception. -/
def interfaceSetattr (p : List (String × PRule)) (d : PyDict) (name : String)
    (value : PyVal) : PyDict × Option IfaceError :=
  match alookup p name with
  | none => (aset d name value, none)
  | some (.con c) =>
      if c.validate value then (aset d name value, none) else (d, some .valueError)
  | some (.fixed _) => (d, some .readOnlyError)

/-- `BaseInterface.__getattr__` (invoked when normal lookup fails): a value
already in `__dict__` is returned; otherwise an `IList`/`IOption` rule or no
rule at all raises the not-available error, an `_IValue` rule materialises
and caches the type's default instance `TYPE()`, and a fixed-value rule
materialises and caches the fixed value itself. -/
def interfaceGetattr (p : List (String × PRule)) (d : PyDict) (name : String) :
    PyDict × Except IfaceError PyVal :=
  match alookup d name with
  | some v => (d, .ok v)
  | none =>
      match alookup p name with
      | some (.con (.ival t)) => (aset d name t.defaultVal, .ok t.defaultVal)
      | some (.con (.ilist _)) => (d, .error .notAvailableError)
      | some (.con (.iopt _)) => (d, .error .notAvailableError)
      | some (.fixed v) => (aset d name v, .ok v)
      | none => (d, .error .notAvailableError)

/-- C1: for a contracted method call, if some positional argument, paired by
position (by `zip`) with its declared parameter constraint, fails validation,
the wrapper raises `InterfaceInputValueError` and the method body never runs:
the state is returned exactly as it was passed in, so none of the body's side
effects occur. -/
theorem input_failure_skips_body {σ : Type} (rule : IFunction)
    (body : σ → List PyVal → List (String × PyVal) → σ × PyVal)
    (s : σ) (args : List PyVal) (kwargs : List (String × PyVal))
    (h : ∃ p ∈ (rule.IN.map Prod.snd).zip args, p.1.validate p.2 = false) :
    checkMethodIo rule body s args kwargs = (s, .error .inputValueError) := by
  unfold checkMethodIo
  rw [validateInputs_eq_some_of_failure _ h]

/-- Witness for C1: a method declared `m(a = int)` called with the string
`"x"`; the wrapper raises the input error and the state counter the body
would have bumped stays at `0`. -/
theorem input_failure_skips_body_witness :
    checkMethodIo ⟨[("a", .ival .int)], .ival .noneType⟩
      (fun (s : Nat) _ _ => (s + 1, .vnone)) 0 [.vstr "x"] [] =
      (0, .error .inputValueError) :=
  input_failure_skips_body _ _ _ _ _ ⟨(.ival .int, .vstr "x"), by decide, by decide⟩

/-- C2: when every zipped positional argument passes validation, the body is
invoked; if its return value fails the `OUT` constraint, the wrapper raises
`InterfaceOutputValueError` and the state it returns is the body's post-state
(no rollback).  Moreover (`_IFunction.__init__`) a method without a
`returns` decoration gets `OUT = _IValue(type(None))`, i.e. must return
nothing, and that constraint accepts exactly `None`. -/
theorem output_failure_after_body :
    (∀ (σ : Type) (rule : IFunction)
        (body : σ → List PyVal → List (String × PyVal) → σ × PyVal)
        (s : σ) (args : List PyVal) (kwargs : List (String × PyVal)),
        (∀ p ∈ (rule.IN.map Prod.snd).zip args, p.1.validate p.2 = true) →
        rule.OUT.validate (body s args kwargs).2 = false →
        checkMethodIo rule body s args kwargs =
          ((body s args kwargs).1, .error .outputValueError)) ∧
    (∀ (f : FuncDecl) (g : IFunction), f.ret = none → mkIFunction f = .ok g →
        g.OUT = .ival .noneType) ∧
    (∀ v : PyVal, (IConstraint.ival .noneType).validate v = true ↔ v = .vnone) := by
  refine ⟨?_, ?_, ?_⟩
  · intro σ rule body s args kwargs hin hout
    unfold checkMethodIo
    rw [(validateInputs_eq_none_iff _).mpr hin]
    simp [hout]
  · intro f g hret hmk
    unfold mkIFunction at hmk
    rw [hret] at hmk
    cases hcv : convertArgPairs (f.args.zip f.defaults) with
    | ok inn =>
        rw [hcv] at hmk
        injection hmk with h2
        rw [← h2]
        rfl
    | error err =>
        rw [hcv] at hmk
        exact Except.noConfusion hmk
  · intro v
    cases v <;> simp [IConstraint.validate, PyVal.typeOf]

/-- Witness for C2: a body that bumps the state and returns an `int` against
`OUT = _IValue(type(None))`: the output error is raised and the returned
state is the body's post-state `1`. -/
theorem output_failure_after_body_witness :
    checkMethodIo ⟨[("a", .ival .int)], .ival .noneType⟩
      (fun (s : Nat) _ _ => (s + 1, .vint 7)) 0 [.vint 5] [] =
      (1, .error .outputValueError) :=
  output_failure_after_body.1 Nat _ _ 0 _ _ (by decide) (by decide)

/-- C10: only positionally supplied arguments are validated.  Even when some
keyword argument's value violates the constraint declared for that very
parameter name, the wrapper proceeds (no input error), invokes the body on
the keyword arguments verbatim, and only the return value is checked. -/
theorem keyword_arguments_bypass_validation {σ : Type} (rule : IFunction)
    (body : σ → List PyVal → List (String × PyVal) → σ × PyVal)
    (s : σ) (args : List PyVal) (kwargs : List (String × PyVal))
    (name : String) (v : PyVal) (c : IConstraint)
    (hin : ∀ p ∈ (rule.IN.map Prod.snd).zip args, p.1.validate p.2 = true)
    (hkw : (name, v) ∈ kwargs) (hc : (name, c) ∈ rule.IN)
    (hviol : c.validate v = false) :
    checkMethodIo rule body s args kwargs =
      ((body s args kwargs).1,
        if rule.OUT.validate (body s args kwargs).2 then .ok (body s args kwargs).2
        else .error .outputValueError) := by
  unfold checkMethodIo
  rw [(validateInputs_eq_none_iff _).mpr hin]
  by_cases hout : rule.OUT.validate (body s args kwargs).2 = true <;> simp [hout]

/-- Witness for C10: a method declared `m(a = int)` called with no positional
argument and the keyword argument `a = "bad"` (violating the declared
constraint for `a`); the body runs on it verbatim and returns `None`. -/
theorem keyword_arguments_bypass_validation_witness :
    checkMethodIo ⟨[("a", .ival .int)], .ival .noneType⟩
      (fun (s : Nat) _ _ => (s + 1, .vnone)) 0 [] [("a", .vstr "bad")] =
      (1, if (IConstraint.ival .noneType).validate .vnone then .ok .vnone
          else .error .outputValueError) :=
  keyword_arguments_bypass_validation _ _ _ _ _ "a" (.vstr "bad") (.ival .int)
    (by decide) (by decide) (by decide) (by decide)

/-- C6: a property governed by a fixed-value rule (any rule entry that is not
one of the three constraint instances) rejects every set attempt with the
read-only error, including the very first one, and leaves the instance
`__dict__` untouched. -/
theorem fixed_value_set_always_raises (p : List (String × PRule)) (d : PyDict)
    (name : String) (value v0 : PyVal)
    (h : alookup p name = some (.fixed v0)) :
    interfaceSetattr p d name value = (d, some .readOnlyError) := by
  unfold interfaceSetattr
  rw [h]

/-- Witness for C6: the very first set attempt on a fixed-value property of a
fresh instance (empty `__dict__`) raises and stores nothing. -/
theorem fixed_value_set_always_raises_witness :
    interfaceSetattr [("version", .fixed (.vint 1))] [] "version" (.vint 2) =
      ([], some .readOnlyError) :=
  fixed_value_set_always_raises _ _ _ _ (.vint 1) (by decide)

/-- C7: getting a property with no materialised value (`name` absent from the
instance `__dict__`) behaves by rule kind: an `_IValue(T)` rule materialises,
caches and returns the zero-value default `T()` — and a second get returns
the same cached value; a fixed-value rule materialises, caches and returns
the fixed value; an `IList`/`IOption` rule, or no rule at all, raises the
not-available error.  The zero values are `0` for `int` and `""` for `str`. -/
theorem getattr_materialises_defaults (p : List (String × PRule)) (d : PyDict)
    (name : String) (hnone : alookup d name = none) :
    (∀ t : PyType, alookup p name = some (.con (.ival t)) →
        interfaceGetattr p d name = (aset d name t.defaultVal, .ok t.defaultVal) ∧
        interfaceGetattr p (aset d name t.defaultVal) name =
          (aset d name t.defaultVal, .ok t.defaultVal)) ∧
    (∀ v : PyVal, alookup p name = some (.fixed v) →
        interfaceGetattr p d name = (aset d name v, .ok v)) ∧
    (∀ t : PyType, alookup p name = some (.con (.ilist t)) →
        interfaceGetattr p d name = (d, .error .notAvailableError)) ∧
    (∀ options : List PyVal, alookup p name = some (.con (.iopt options)) →
        interfaceGetattr p d name = (d, .error .notAvailableError)) ∧
    (alookup p name = none →
        interfaceGetattr p d name = (d, .error .notAvailableError)) ∧
    PyType.defaultVal .int = .vint 0 ∧ PyType.defaultVal .str = .vstr "" := by
  refine ⟨?_, ?_, ?_, ?_, ?_, rfl, rfl⟩
  · intro t hp
    constructor
    · unfold interfaceGetattr
      rw [hnone, hp]
    · unfold interfaceGetattr
      rw [alookup_aset_self]
  · intro v hp
    unfold interfaceGetattr
    rw [hnone, hp]
  · intro t hp
    unfold interfaceGetattr
    rw [hnone, hp]
  · intro options hp
    unfold interfaceGetattr
    rw [hnone, hp]
  · intro hp
    unfold interfaceGetattr
    rw [hnone, hp]

/-- Witness for C7: an unset `int`-typed property of a fresh instance reads
as the cached zero value `0`. -/
theorem getattr_materialises_defaults_witness :
    interfaceGetattr [("age", .con (.ival .int))] [] "age" =
      (aset [] "age" (PyType.defaultVal .int), .ok (PyType.defaultVal .int)) :=
  ((getattr_materialises_defaults [("age", .con (.ival .int))] [] "age"
      (by decide)).1 .int (by decide)).1

/-- C3 (code bug): the binder installs the no-op default `__init__` whenever
the rule set has no `__init__` rule, even when the concrete class supplies a
constructor of its own — the supplied constructor is clobbered, not kept.
Here the concrete body declares its own `__init__` (as in the doctest of
interface.py, where `YourPort.__init__` sets `self.name = 'NOT_SET'` and the
docstring promises `uPort.name` prints `'NOT_SET'`), the interface rule set
has no constructor rule, and the finished class's `__init__` attribute is the
installed no-op, not the supplied constructor. -/
theorem own_init_replaced_by_noop :
    apply_rules_to_method ⟨[], [("name", .con (.ival .str))]⟩
      [("__init__", .func ⟨[], []⟩)] =
      .ok [("__init__", .noopInit)] := by rfl

theorem establishLoop_preserves_m (ns : List (String × NsEntry)) (k : String)
    (fn : IFunction) :
    ∀ r : IRule, alookup r.m k = some fn →
      alookup (establishLoop r ns).1.m k = some fn := by
  induction ns with
  | nil =>
      intro r hm
      simpa [establishLoop] using hm
  | cons hd tl ih =>
      intro r hm
      obtain ⟨k1, e⟩ := hd
      by_cases hk : (alookup r.m k1).isSome = true
      · simp only [establishLoop, if_pos hk]
        exact ih r hm
      · have hne : k1 ≠ k := by
          intro hcc
          subst hcc
          rw [hm] at hk
          simp at hk
        cases e with
        | func fd =>
            cases hmk : mkIFunction fd with
            | ok fn2 =>
                simp only [establishLoop, if_neg hk, hmk]
                apply ih
                show alookup (aset r.m k1 fn2) k = some fn
                rw [alookup_aset_ne _ _ _ _ hne]
                exact hm
            | error err =>
                simp only [establishLoop, if_neg hk, hmk]
                exact hm
        | lit lv =>
            by_cases hdun : isDunder k1 = true
            · simp only [establishLoop, if_neg hk, hdun, if_pos]
              exact ih r hm
            · simp only [establishLoop, if_neg hk, if_neg hdun]
              exact ih ⟨r.m, aset r.p k1 (toPRule lv)⟩ hm

/-- Counterexample for C4: the registry entry under an already-present name is
NOT left unchanged by a repeated definition.  Declaring `IA` with the property
`x = int` and then re-declaring `IA` with `x = str` overwrites the stored
property rule for `x`: the loop in `_establish_rules` skips a namespace key
only when it already appears among the METHOD rules, so property rules are
re-assigned. -/
theorem redeclaration_overwrites_property_rules :
    alookup (establish_rules [] "IA" [("x", .lit (.typ .int))]).1 "IA" =
      some ⟨[], [("x", .con (.ival .int))]⟩ ∧
    alookup (establish_rules (establish_rules [] "IA" [("x", .lit (.typ .int))]).1
        "IA" [("x", .lit (.typ .str))]).1 "IA" =
      some ⟨[], [("x", .con (.ival .str))]⟩ := by
  constructor
  · rfl
  · rfl

/-- C4 as amended: a repeated definition under an existing name is not
rejected, and every method rule already stored under that name survives the
repeated definition unchanged (such names are skipped by the loop); however
property rules are re-assigned from the new body and new method rules may be
added, so the rule set as a whole is not left unchanged. -/
theorem redeclaration_preserves_method_rules (registry : Registry)
    (clsName : String) (ns : List (String × NsEntry)) (r0 : IRule)
    (h : alookup registry clsName = some r0) (k : String) (fn : IFunction)
    (hm : alookup r0.m k = some fn) :
    ∃ r1 : IRule, alookup (establish_rules registry clsName ns).1 clsName = some r1 ∧
      alookup r1.m k = some fn := by
  refine ⟨(establishLoop r0 ns).1, ?_, ?_⟩
  · unfold establish_rules
    rw [h]
    exact alookup_aset_self _ _ _
  · exact establishLoop_preserves_m ns k fn r0 hm

/-- Witness for the amended C4: an interface with one compiled method rule is
re-declared with an unrelated property body; the stored method rule survives
unchanged. -/
theorem redeclaration_preserves_method_rules_witness :
    ∃ r1 : IRule, alookup (establish_rules
        [("IC", ⟨[("m1", ⟨[("a", .ival .int)], .ival .noneType⟩)], []⟩)]
        "IC" [("x", .lit (.typ .str))]).1 "IC" = some r1 ∧
      alookup r1.m "m1" = some ⟨[("a", .ival .int)], .ival .noneType⟩ :=
  redeclaration_preserves_method_rules
    [("IC", ⟨[("m1", ⟨[("a", .ival .int)], .ival .noneType⟩)], []⟩)] "IC"
    [("x", .lit (.typ .str))]
    ⟨[("m1", ⟨[("a", .ival .int)], .ival .noneType⟩)], []⟩ rfl "m1"
    ⟨[("a", .ival .int)], .ival .noneType⟩ rfl

/-- Counterexample for C5: the method-name and property-name sets of a stored
rule set are NOT always disjoint.  Declaring `IB` with `foo = int` (a
property rule) and then re-declaring `IB` with `foo` as a function makes
`foo` both a method rule and a property rule: the skip guard of
`_establish_rules` consults only the method map, and storing the new function
rule never removes the old property rule. -/
theorem property_redeclared_as_method_overlap :
    (alookup ((alookup (establish_rules
        (establish_rules [] "IB" [("foo", .lit (.typ .int))]).1
        "IB" [("foo", .func ⟨[], [], none⟩)]).1 "IB").getD ⟨[], []⟩).m "foo").isSome = true ∧
    (alookup ((alookup (establish_rules
        (establish_rules [] "IB" [("foo", .lit (.typ .int))]).1
        "IB" [("foo", .func ⟨[], [], none⟩)]).1 "IB").getD ⟨[], []⟩).p "foo").isSome = true := by
  constructor
  · rfl
  · rfl

theorem establishLoop_disjoint (ns : List (String × NsEntry)) :
    ∀ r : IRule,
      (∀ k : String, ¬((alookup r.m k).isSome = true ∧ (alookup r.p k).isSome = true)) →
      (∀ k ∈ ns.map Prod.fst, alookup r.m k = none ∧ alookup r.p k = none) →
      (ns.map Prod.fst).Nodup →
      ∀ k : String, ¬((alookup (establishLoop r ns).1.m k).isSome = true ∧
        (alookup (establishLoop r ns).1.p k).isSome = true) := by
  induction ns with
  | nil =>
      intro r hdis hfr hnd k
      simpa [establishLoop] using hdis k
  | cons hd tl ih =>
      intro r hdis hfr hnd k
      obtain ⟨k1, e⟩ := hd
      have hf1 : alookup r.m k1 = none ∧ alookup r.p k1 = none := hfr k1 (by simp)
      have hk : ¬((alookup r.m k1).isSome = true) := by
        rw [hf1.1]
        simp
      have hndtl : (tl.map Prod.fst).Nodup := by
        simpa using hnd.of_cons
      have hk1tl : k1 ∉ tl.map Prod.fst := by
        have := hnd
        simp only [List.map_cons, List.nodup_cons] at this
        exact this.1
      cases e with
      | func fd =>
          cases hmk : mkIFunction fd with
          | ok fn2 =>
              simp only [establishLoop, if_neg hk, hmk]
              apply ih ⟨aset r.m k1 fn2, r.p⟩
              · intro k2
                by_cases h12 : k1 = k2
                · subst h12
                  rw [alookup_aset_self]
                  rw [hf1.2]
                  simp
                · rw [alookup_aset_ne _ _ _ _ h12]
                  exact hdis k2
              · intro k2 hk2
                have hne : k1 ≠ k2 := by
                  intro hcc
                  subst hcc
                  exact hk1tl hk2
                rw [alookup_aset_ne _ _ _ _ hne]
                exact hfr k2 (by simp [hk2])
              · exact hndtl
          | error err =>
              simp only [establishLoop, if_neg hk, hmk]
              exact hdis k
      | lit lv =>
          by_cases hdun : isDunder k1 = true
          · simp only [establishLoop, if_neg hk, hdun, if_pos]
            apply ih r hdis ?_ hndtl
            intro k2 hk2
            exact hfr k2 (by simp [hk2])
          · simp only [establishLoop, if_neg hk, if_neg hdun]
            apply ih ⟨r.m, aset r.p k1 (toPRule lv)⟩
            · intro k2
              by_cases h12 : k1 = k2
              · subst h12
                rw [alookup_aset_self]
                rw [hf1.1]
                simp
              · rw [alookup_aset_ne _ _ _ _ h12]
                exact hdis k2
            · intro k2 hk2
              have hne : k1 ≠ k2 := by
                intro hcc
                subst hcc
                exact hk1tl hk2
              rw [alookup_aset_ne _ _ _ _ hne]
              exact hfr k2 (by simp [hk2])
            · exact hndtl

/-- C5 as amended: after declaring an interface under a FRESH name from a
class body (whose keys, as dictionary keys, are pairwise distinct), the
stored rule set's method-name and property-name sets are disjoint.  The
disjointness can only be broken by a repeated definition under the same name
that re-declares a former property name as a function (see the
counterexample). -/
theorem single_declaration_disjoint (registry : Registry) (clsName : String)
    (ns : List (String × NsEntry)) (hfresh : alookup registry clsName = none)
    (hnd : (ns.map Prod.fst).Nodup) (k : String) :
    ¬((alookup ((alookup (establish_rules registry clsName ns).1 clsName).getD
        ⟨[], []⟩).m k).isSome = true ∧
      (alookup ((alookup (establish_rules registry clsName ns).1 clsName).getD
        ⟨[], []⟩).p k).isSome = true) := by
  unfold establish_rules
  rw [hfresh]
  rw [alookup_aset_self]
  apply establishLoop_disjoint ns ⟨[], []⟩
  · intro k2
    simp [alookup]
  · intro k2 hk2
    simp [alookup]
  · exact hnd

/-- Witness for the amended C5: one declaration with a method and a property
under distinct names keeps the two name sets disjoint at every name, here at
`"x"`. -/
theorem single_declaration_disjoint_witness :
    ¬((alookup ((alookup (establish_rules [] "ID"
        [("m1", .func ⟨[], [], none⟩), ("x", .lit (.typ .int))]).1 "ID").getD
        ⟨[], []⟩).m "x").isSome = true ∧
      (alookup ((alookup (establish_rules [] "ID"
        [("m1", .func ⟨[], [], none⟩), ("x", .lit (.typ .int))]).1 "ID").getD
        ⟨[], []⟩).p "x").isSome = true) :=
  single_declaration_disjoint [] "ID" _ rfl (by decide) "x"

/-- Relates two concrete-namespace lookups the binder cannot tell apart: both
absent, both non-functions, or both functions with the same parameter names
(declared defaults may differ — the binder never reads them). -/
def entryShapeEq : Option CEntry → Option CEntry → Prop
  | none, none => True
  | some (.nonfunc _), some (.nonfunc _) => True
  | some (.func f), some (.func g) => f.args = g.args
  | _, _ => False

theorem applyLoop_error_iff (ns ns' : List (String × CEntry))
    (hsh : ∀ k : String, entryShapeEq (alookup ns k) (alookup ns' k)) :
    ∀ (L : List (String × IFunction)) (t t' : ClassTable) (e : IfaceError),
      (applyLoop ns L t = .error e ↔ applyLoop ns' L t' = .error e) := by
  intro L
  induction L with
  | nil =>
      intro t t' e
      simp [applyLoop]
  | cons hd rest ih =>
      intro t t' e
      obtain ⟨k, fn⟩ := hd
      have hk := hsh k
      cases h1 : alookup ns k with
      | none =>
          cases h2 : alookup ns' k with
          | none => simp [applyLoop, h1, h2]
          | some c2 =>
              rw [h1, h2] at hk
              cases c2 with
              | func g => exact hk.elim
              | nonfunc v => exact hk.elim
      | some c1 =>
          cases h2 : alookup ns' k with
          | none =>
              rw [h1, h2] at hk
              cases c1 with
              | func g => exact hk.elim
              | nonfunc v => exact hk.elim
          | some c2 =>
              rw [h1, h2] at hk
              cases c1 with
              | nonfunc v1 =>
                  cases c2 with
                  | nonfunc v2 =>
                      simp only [applyLoop, h1, h2]
                      exact ih t t' e
                  | func g => exact hk.elim
              | func f =>
                  cases c2 with
                  | nonfunc v2 => exact hk.elim
                  | func g =>
                      have hargs : f.args = g.args := hk
                      simp only [applyLoop, h1, h2, ← hargs]
                      by_cases harg : fn.IN.map Prod.fst = f.args
                      · simp only [if_pos harg]
                        exact ih _ _ e
                      · simp only [if_neg harg]

theorem entryShapeEq_setDefaultsTo (ds : List PyVal) (ns : List (String × CEntry))
    (k : String) :
    entryShapeEq (alookup ns k) (alookup (setDefaultsTo ds ns) k) := by
  induction ns with
  | nil => exact trivial
  | cons hd tl ih =>
      obtain ⟨k1, e⟩ := hd
      by_cases h : k1 = k
      · subst h
        cases e with
        | func f => simp [setDefaultsTo, alookup, entryShapeEq]
        | nonfunc v => simp [setDefaultsTo, alookup, entryShapeEq]
      · cases e with
        | func f => simpa [setDefaultsTo, alookup, h] using ih
        | nonfunc v => simpa [setDefaultsTo, alookup, h] using ih

/-- C8: at concrete-class declaration time the binder compares the concrete
method's parameter-name sequence (receiver excluded) against the rule's `IN`
parameter names as lists — so any mismatch in count, name or order, and only
such a mismatch, fails with the signature error; and the declared defaults on
the concrete side play no role: replacing all of them changes nothing about
which error, if any, the declaration raises. -/
theorem signature_mismatch_fails :
    (∀ (rule : IRule) (k : String) (fn : IFunction) (f : CFunc)
        (ns : List (String × CEntry)),
        rule.m = [(k, fn)] → alookup ns k = some (.func f) →
        (apply_rules_to_method rule ns = .error (.signatureMismatchError k) ↔
          fn.IN.map Prod.fst ≠ f.args)) ∧
    (∀ (rule : IRule) (ns : List (String × CEntry)) (ds : List PyVal)
        (e : IfaceError),
        apply_rules_to_method rule ns = .error e ↔
          apply_rules_to_method rule (setDefaultsTo ds ns) = .error e) := by
  constructor
  · intro rule k fn f ns hm hns
    unfold apply_rules_to_method
    rw [hm]
    by_cases harg : fn.IN.map Prod.fst = f.args
    · simp only [applyLoop, hns, if_pos harg]
      simp [harg]
    · simp only [applyLoop, hns, if_neg harg]
      simp [harg]
  · intro rule ns ds e
    unfold apply_rules_to_method
    exact applyLoop_error_iff ns (setDefaultsTo ds ns)
      (fun k2 => entryShapeEq_setDefaultsTo ds ns k2) rule.m _ _ e

/-- Witness for C8: a concrete method with parameter names `["x"]` against an
interface rule declaring `["a", "b"]` fails at declaration with the
signature error, exactly as in the spec's example. -/
theorem signature_mismatch_fails_witness :
    apply_rules_to_method
      ⟨[("m", ⟨[("a", .ival .int), ("b", .ival .int)], .ival .noneType⟩)], []⟩
      [("m", .func ⟨["x"], []⟩)] = .error (.signatureMismatchError "m") :=
  (signature_mismatch_fails.1
      ⟨[("m", ⟨[("a", .ival .int), ("b", .ival .int)], .ival .noneType⟩)], []⟩
      "m" ⟨[("a", .ival .int), ("b", .ival .int)], .ival .noneType⟩ ⟨["x"], []⟩
      [("m", .func ⟨["x"], []⟩)] rfl rfl).mpr (by decide)

theorem applyLoop_missing (ns : List (String × CEntry)) :
    ∀ (L : List (String × IFunction)) (t : ClassTable),
      (∀ (k : String) (fn : IFunction), (k, fn) ∈ L →
        ∀ f : CFunc, alookup ns k = some (.func f) → fn.IN.map Prod.fst = f.args) →
      (∃ (k : String) (fn : IFunction), (k, fn) ∈ L ∧ alookup ns k = none) →
      ∃ k : String, alookup ns k = none ∧
        applyLoop ns L t = .error (.missingMethodError k) := by
  intro L
  induction L with
  | nil =>
      intro t hpass hmiss
      obtain ⟨k, fn, hmem, _⟩ := hmiss
      simp at hmem
  | cons hd rest ih =>
      intro t hpass hmiss
      obtain ⟨k0, fn0⟩ := hd
      cases h1 : alookup ns k0 with
      | none =>
          refine ⟨k0, h1, ?_⟩
          simp [applyLoop, h1]
      | some c =>
          have hmiss2 : ∃ (k : String) (fn : IFunction), (k, fn) ∈ rest ∧
              alookup ns k = none := by
            obtain ⟨k, fn, hmem, hnone⟩ := hmiss
            rcases List.mem_cons.mp hmem with heq | hmem2
            · exfalso
              have hkk : k = k0 := congrArg Prod.fst heq
              rw [hkk, h1] at hnone
              exact Option.noConfusion hnone
            · exact ⟨k, fn, hmem2, hnone⟩
          have hpass2 : ∀ (k : String) (fn : IFunction), (k, fn) ∈ rest →
              ∀ f : CFunc, alookup ns k = some (.func f) →
                fn.IN.map Prod.fst = f.args := by
            intro k fn hmem f hf
            exact hpass k fn (List.mem_cons_of_mem _ hmem) f hf
          cases c with
          | nonfunc v =>
              simp only [applyLoop, h1]
              exact ih t hpass2 hmiss2
          | func f =>
              have harg := hpass k0 fn0 (List.mem_cons_self _ _) f h1
              simp only [applyLoop, h1, if_pos harg]
              exact ih _ hpass2 hmiss2

/-- C9: a concrete class omitting a method required by the rule set fails at
class-declaration time (`apply_rules_to_method` runs inside the metaclass
`__new__`, before the class can ever be used) with the MISSING error.  The
hypothesis that every method present has a matching signature rules out the
loop aborting earlier with the signature error for a different name. -/
theorem missing_method_fails_at_declaration (rule : IRule)
    (ns : List (String × CEntry))
    (hpass : ∀ (k : String) (fn : IFunction), (k, fn) ∈ rule.m →
        ∀ f : CFunc, alookup ns k = some (.func f) → fn.IN.map Prod.fst = f.args)
    (hmiss : ∃ (k : String) (fn : IFunction), (k, fn) ∈ rule.m ∧
        alookup ns k = none) :
    ∃ k : String, alookup ns k = none ∧
      apply_rules_to_method rule ns = .error (.missingMethodError k) := by
  unfold apply_rules_to_method
  exact applyLoop_missing ns rule.m _ hpass hmiss

/-- Witness for C9: a rule set requiring `m1` bound against an empty concrete
body fails with the MISSING error at declaration. -/
theorem missing_method_fails_at_declaration_witness :
    ∃ k : String, alookup ([] : List (String × CEntry)) k = none ∧
      apply_rules_to_method ⟨[("m1", ⟨[], .ival .noneType⟩)], []⟩ [] =
        .error (.missingMethodError k) :=
  missing_method_fails_at_declaration ⟨[("m1", ⟨[], .ival .noneType⟩)], []⟩ []
    (fun k fn hmem f hf => Option.noConfusion hf)
    ⟨"m1", ⟨[], .ival .noneType⟩, List.mem_singleton_self _, rfl⟩
